import Mathlib

/-! Verification of the single-site crawler (`src/scraper/app/crawler.py`).

This file gives a shallow embedding of the crawl control loop of
`WebsiteCrawler` (crawler.py) together with the parts of Python's
`urllib.parse` and `urllib.robotparser` (CPython 3.11) that the crawler
calls, and proves/refutes the frozen claims about it.

Conventions of the embedding:
* Python strings are Lean `String`s; the string methods used by the code
  (`startswith`, `endswith`, `in`, `lower`, slicing) are modelled over
  `String.toList` (`pyStartsWith`, `pyEndsWith`, `pyIn`, `pyLower`);
  `lower` is modelled for ASCII text, which is all the crawler compares.
* The two fetch collaborators `Scraper.scrape_static` / `scrape_dynamic`
  are external (network/browser); they enter the embedding as parameters
  of type `Fetcher := String → Option ScrapeResult`, where `none` models
  the collaborator raising.
* `time.sleep`/`random.uniform` (the politeness delay) only consume real
  time and do not touch the crawl state; they are not modelled.
* Python `set` membership/insertion is modelled by a `List String`
  carrying the visited URLs; `deque` by a `List String` used FIFO.
-/

set_option linter.unusedVariables false

namespace PyUrllib

/-! ## Python string-method models -/

/-- Python `s.startswith(p)`. -/
def pyStartsWith (s p : String) : Bool := decide (p.toList <+: s.toList)

/-- Python `s.endswith(p)`. -/
def pyEndsWith (s p : String) : Bool := decide (p.toList <:+ s.toList)

/-- Python `sub in s` (substring containment). -/
def pyIn (sub s : String) : Bool := decide (sub.toList <:+: s.toList)

/-- Python `s.lower()` restricted to ASCII input (all strings the crawler
lowercases are ASCII URLs and extensions). -/
def pyLower (s : String) : String := String.mk (s.toList.map Char.toLower)

/-! ## `urllib.parse` model (CPython 3.11, `Lib/urllib/parse.py`)

Only the pieces reached from the crawler are modelled: `urlsplit`,
`urlunsplit`, `urlparse`, `urlunparse`, `urljoin`, always with
`allow_fragments=True` and `str` arguments.

CPython's `urlsplit` can also `raise ValueError` ("Invalid IPv6 URL" when
the netloc has unbalanced square brackets, and `_checknetloc`'s rejection
of non-ASCII netlocs that change under NFKC normalization).  The model is
therefore two-layered: `urlsplit`/`urlparse`/`urljoin` below compute the
value the CPython functions return *when they do not raise*, and
`urlsplitE`/`urlparseE`/`urljoinE` are the error-aware versions, returning
`Except.error ()` exactly where CPython raises (`Except.ok` carries the
value-layer result).  Everything that speaks about the raising behaviour
of the program is stated over the `E` layer. -/

/-- `scheme_chars` of `urllib.parse`. -/
def schemeChars : List Char :=
  ("abcdefghijklmnopqrstuvwxyzABCDEFGHIJKLMNOPQRSTUVWXYZ0123456789+-.").toList

/-- `uses_relative` of `urllib.parse`. -/
def uses_relative : List String :=
  ["", "ftp", "http", "gopher", "nntp", "imap", "wais", "file", "https",
   "shttp", "mms", "prospero", "rtsp", "rtspu", "sftp", "svn", "svn+ssh",
   "ws", "wss"]

/-- `uses_netloc` of `urllib.parse`. -/
def uses_netloc : List String :=
  ["", "ftp", "http", "gopher", "nntp", "telnet", "imap", "wais", "file",
   "mms", "https", "shttp", "snews", "prospero", "rtsp", "rtspu", "rsync",
   "svn", "svn+ssh", "sftp", "nfs", "git", "git+ssh", "ws", "wss"]

/-- `uses_params` of `urllib.parse`. -/
def uses_params : List String :=
  ["", "ftp", "hdl", "prospero", "http", "imap", "https", "shttp", "rtsp",
   "rtspu", "sip", "sips", "mms", "sftp", "tel"]

/-- Result of `urlsplit`: `<scheme>://<netloc>/<path>?<query>#<fragment>`. -/
structure SplitResult where
  scheme : String
  netloc : String
  path : String
  query : String
  fragment : String
deriving DecidableEq, Repr

/-- Result of `urlparse` (`urlsplit` plus the `;params` component). -/
structure ParseResult where
  scheme : String
  netloc : String
  path : String
  params : String
  query : String
  fragment : String
deriving DecidableEq, Repr

/-- The scheme-detection step of `urlsplit`: `i = url.find(':')`; when
`i > 0`, the first character is an ASCII letter (Lean's `Char.isAlpha`
is exactly ASCII `isascii() and isalpha()`) and every character before
the colon is in `scheme_chars`, the scheme is split off and lowercased. -/
def splitScheme (url : List Char) (defaultScheme : String) : String × List Char :=
  match url.findIdx? (fun c => c == ':') with
  | none => (defaultScheme, url)
  | some i =>
    if 0 < i then
      match url with
      | [] => (defaultScheme, url)
      | c0 :: _ =>
        if c0.isAlpha && (url.take i).all (fun c => schemeChars.contains c) then
          (String.mk ((url.take i).map Char.toLower), url.drop (i + 1))
        else (defaultScheme, url)
    else (defaultScheme, url)

/-- `_splitnetloc(url, 2)` applied when `url[:2] == '//'`: the netloc runs
up to the first of `/`, `?`, `#`; the remainder keeps the delimiter. -/
def splitNetloc : List Char → List Char × List Char
  | '/' :: '/' :: rest =>
      (rest.takeWhile (fun c => !(c == '/' || c == '?' || c == '#')),
       rest.dropWhile (fun c => !(c == '/' || c == '?' || c == '#')))
  | url => ([], url)

/-- Python `url.split(sep, 1)` for a one-character separator, returning
`(url, '')` when the separator is absent (the way `urlsplit` uses it). -/
def splitOnce (sep : Char) (l : List Char) : List Char × List Char :=
  (l.takeWhile (fun c => !(c == sep)), (l.dropWhile (fun c => !(c == sep))).drop 1)

/-- `urllib.parse.urlsplit(url, scheme, allow_fragments=True)`, value
layer: the result CPython returns when it does not raise (the raise
conditions are carried by `urlsplitE`).  The WHATWG unsafe bytes `\t`,
`\r`, `\n` are removed first, then scheme, netloc, fragment and query
are split off in that order. -/
def urlsplit (urlS defaultScheme : String) : SplitResult :=
  let url0 := urlS.toList.filter (fun c => !(c == '\t' || c == '\r' || c == '\n'))
  let sp := splitScheme url0 defaultScheme
  let nl := splitNetloc sp.2
  let fr := splitOnce '#' nl.2
  let qu := splitOnce '?' fr.1
  { scheme := sp.1, netloc := String.mk nl.1, path := String.mk qu.1,
    query := String.mk qu.2, fragment := String.mk fr.2 }

/-- `urllib.parse.urlunsplit`. -/
def urlunsplit (r : SplitResult) : String :=
  let url := r.path
  let url :=
    if r.netloc != "" || (r.scheme != "" && uses_netloc.contains r.scheme
        && !(pyStartsWith url "//")) then
      "//" ++ r.netloc ++ (if url != "" && !(pyStartsWith url "/") then "/" ++ url else url)
    else url
  let url := if r.scheme != "" then r.scheme ++ ":" ++ url else url
  let url := if r.query != "" then url ++ "?" ++ r.query else url
  if r.fragment != "" then url ++ "#" ++ r.fragment else url

/-- `_splitparams(url)`: split off the `;params` of the last path segment. -/
def splitparams (url : List Char) : List Char × List Char :=
  if url.contains '/' then
    let r := url.length - 1 - ((url.reverse.findIdx? (fun c => c == '/')).getD 0)
    match (url.drop r).findIdx? (fun c => c == ';') with
    | some j => (url.take (r + j), url.drop (r + j + 1))
    | none => (url, [])
  else
    match url.findIdx? (fun c => c == ';') with
    | some i => (url.take i, url.drop (i + 1))
    | none => (url, [])

/-- The `;params` step of `urlparse` applied to an `urlsplit` result. -/
def urlparseOf (s : SplitResult) : ParseResult :=
  if uses_params.contains s.scheme && s.path.toList.contains ';' then
    let pp := splitparams s.path.toList
    { scheme := s.scheme, netloc := s.netloc, path := String.mk pp.1,
      params := String.mk pp.2, query := s.query, fragment := s.fragment }
  else
    { scheme := s.scheme, netloc := s.netloc, path := s.path, params := "",
      query := s.query, fragment := s.fragment }

/-- `urllib.parse.urlparse(url, scheme, allow_fragments=True)`. -/
def urlparse (urlS defaultScheme : String) : ParseResult :=
  urlparseOf (urlsplit urlS defaultScheme)

/-- `urllib.parse.urlunparse`. -/
def urlunparse (p : ParseResult) : String :=
  urlunsplit
    { scheme := p.scheme, netloc := p.netloc,
      path := if p.params != "" then p.path ++ ";" ++ p.params else p.path,
      query := p.query, fragment := p.fragment }

/-- Python `s.split(sep)` for a one-character separator, on character
lists: splitting `''` gives `['']`, separators at the ends give empty
segments, exactly as `str.split`. -/
def splitOnChar (sep : Char) : List Char → List (List Char)
  | [] => [[]]
  | c :: rest =>
    if c == sep then [] :: splitOnChar sep rest
    else
      match splitOnChar sep rest with
      | [] => [[c]]
      | h :: t => (c :: h) :: t

/-- Python `sep.join(parts)`. -/
def joinWith (sep : String) : List String → String
  | [] => ""
  | [a] => a
  | a :: rest => a ++ sep ++ joinWith sep rest

/-- Python `s.split('/')` on strings. -/
def splitSlash (s : String) : List String :=
  (splitOnChar '/' s.toList).map String.mk

/-- `segments[1:-1] = filter(None, segments[1:-1])` of `urljoin`: drop the
empty segments strictly between the first and the last one. -/
def filterInnerSegments : List String → List String
  | [] => []
  | [a] => [a]
  | a :: rest => a :: ((rest.dropLast.filter (fun s => s != "")) ++ [rest.getLastD ""])

/-- The dot-segment resolution loop of `urljoin` (`'..'` pops, `'.'` is
skipped, popping an empty stack is ignored). -/
def resolveSegments (segments : List String) : List String :=
  segments.foldl (fun acc seg =>
    if seg = ".." then acc.dropLast
    else if seg = "." then acc
    else acc ++ [seg]) []

/-- `urllib.parse.urljoin(base, url)` (CPython 3.11). -/
def urljoin (base url : String) : String :=
  if base = "" then url
  else if url = "" then base
  else
    let b := urlparse base ""
    let u := urlparse url b.scheme
    if u.scheme != b.scheme || !(uses_relative.contains u.scheme) then url
    else if uses_netloc.contains u.scheme && u.netloc != "" then urlunparse u
    else
      let netloc := if uses_netloc.contains u.scheme then b.netloc else u.netloc
      if u.path = "" && u.params = "" then
        urlunparse
          { scheme := u.scheme, netloc := netloc, path := b.path,
            params := b.params,
            query := if u.query = "" then b.query else u.query,
            fragment := u.fragment }
      else
        let base_parts0 := splitSlash b.path
        let base_parts :=
          if base_parts0.getLastD "" != "" then base_parts0.dropLast else base_parts0
        let segments :=
          if pyStartsWith u.path "/" then splitSlash u.path
          else filterInnerSegments (base_parts ++ splitSlash u.path)
        let resolved := resolveSegments segments
        let resolved :=
          if segments.getLastD "" = "." || segments.getLastD "" = ".." then
            resolved ++ [""]
          else resolved
        let joined := joinWith "/" resolved
        urlunparse
          { scheme := u.scheme, netloc := netloc,
            path := if joined = "" then "/" else joined,
            params := u.params, query := u.query, fragment := u.fragment }

/-! ## Error-aware layer: where CPython raises `ValueError` -/

/-- `urllib.parse.urlsplit` with its raise paths.  After the netloc is
split off, CPython raises `ValueError("Invalid IPv6 URL")` when the
netloc has a `[` without `]` or a `]` without `[` (parse.py lines
470-474), and `_checknetloc` raises for netlocs that are not pure ASCII
and change under NFKC normalization.  The bracket condition is modelled
exactly; the NFKC condition needs `unicodedata`, so non-ASCII netlocs
are rejected conservatively (CPython raises only for the NFKC-unstable
subset of them) — every URL this development reasons about is ASCII,
where the model is exact.  On success the value is exactly `urlsplit`'s
(the same `splitScheme`/`splitNetloc` pipeline). -/
def urlsplitE (urlS defaultScheme : String) : Except Unit SplitResult :=
  let url0 := urlS.toList.filter (fun c => !(c == '\t' || c == '\r' || c == '\n'))
  let sp := splitScheme url0 defaultScheme
  let nl := splitNetloc sp.2
  if ('[' ∈ nl.1 ∧ ']' ∉ nl.1) ∨ (']' ∈ nl.1 ∧ '[' ∉ nl.1) then Except.error ()
  else if ¬ nl.1.all (fun c => c.toNat ≤ 127) then Except.error ()
  else Except.ok (urlsplit urlS defaultScheme)

/-- `urllib.parse.urlparse` with `urlsplit`'s raise paths (the `;params`
step itself cannot raise). -/
def urlparseE (urlS defaultScheme : String) : Except Unit ParseResult :=
  match urlsplitE urlS defaultScheme with
  | Except.error e => Except.error e
  | Except.ok s => Except.ok (urlparseOf s)

/-- `urllib.parse.urljoin` with its raise paths: it parses `base` and
then `url`, propagating `urlsplit`'s `ValueError`s; everything after the
two parses is pure, so on success the result is exactly `urljoin`'s. -/
def urljoinE (base url : String) : Except Unit String :=
  if base = "" then Except.ok url
  else if url = "" then Except.ok base
  else
    match urlparseE base "" with
    | Except.error e => Except.error e
    | Except.ok b =>
      match urlparseE url b.scheme with
      | Except.error e => Except.error e
      | Except.ok _ => Except.ok (urljoin base url)

end PyUrllib

namespace Crawler

open PyUrllib

/-! ## `urllib.robotparser.RobotFileParser` model (CPython 3.11)

The crawler only ever calls `set_url`, `read` and `can_fetch("*", url)`.
The parsed rule set (`entries`/`default_entry`) is summarised by the
function `rules`, giving the answer of the rule-matching part of
`can_fetch` once a robots file has been read; the three control fields
`disallow_all`, `allow_all`, `last_checked` are modelled exactly.  A
freshly constructed parser has `disallow_all = allow_all = False` and
`last_checked = 0`, and `can_fetch` answers `False` for every URL until
`last_checked` is set by a successful `read` (see `can_fetch`). -/

structure RobotFileParser where
  disallow_all : Bool
  allow_all : Bool
  last_checked : Nat
  rules : String → Bool

/-- `RobotFileParser.__init__`: `disallow_all = allow_all = False`,
`last_checked = 0`; with no entries the rule-matching part of
`can_fetch` falls through to `return True`. -/
def RobotFileParser.fresh : RobotFileParser :=
  { disallow_all := false, allow_all := false, last_checked := 0,
    rules := fun _ => true }

/-- `RobotFileParser.can_fetch("*", url)`. -/
def RobotFileParser.can_fetch (rp : RobotFileParser) (url : String) : Bool :=
  if rp.disallow_all then false
  else if rp.allow_all then true
  else if rp.last_checked = 0 then false
  else rp.rules url

/-! ## `WebsiteCrawler` (crawler.py) -/

/-- One entry of `structured_data["links"]` as produced by
`Scraper.extract_structured_data`: `{"text": ..., "url": ...}`. -/
structure Link where
  text : String
  url : String
deriving DecidableEq, Repr

/-- The part of `structured_data` the crawl loop reads: the `"links"`
list.  The remaining keys (title, forms, emails, ...) are opaque
pass-through data never inspected by `crawler.py`. -/
structure StructuredData where
  links : List Link
deriving DecidableEq, Repr

/-- Return value of `Scraper.scrape_static` / `scrape_dynamic`:
`{"text": ..., "structured_data": ...}` where `structured_data` is a
dict (`some`) or `None` (`none`). -/
structure ScrapeResult where
  text : String
  structured_data : Option StructuredData
deriving DecidableEq, Repr

/-- One entry of `self.results`: `{"url": current_url, "content": result}`. -/
structure PageRecord where
  url : String
  content : ScrapeResult
deriving DecidableEq, Repr

/-- A fetch collaborator (`scrape_static` or `scrape_dynamic`): `none`
models the call raising an exception. -/
abbrev Fetcher := String → Option ScrapeResult

/-- The immutable configuration part of a `WebsiteCrawler` set up by
`__init__`: `base_url`, `base_domain = urlparse(base_url).netloc`,
`max_pages`, `respect_robots` and the robots parser.  (`delay_range`
only feeds `time.sleep` and is not modelled; the scraper instance enters
as the `Fetcher` parameters.) -/
structure WebsiteCrawler where
  base_url : String
  base_domain : String
  max_pages : Nat
  respect_robots : Bool
  robotParser : RobotFileParser

/-- Lines 29-37 of `crawler.py`: a fresh `RobotFileParser` is created;
only when `respect_robots` is set is `read()` attempted.  `readResult`
is the outcome of that collaborator call: `some rp` when the robots file
was fetched and parsed (leaving the parser in state `rp`), `none` when
`read()` raised — the exception is caught and logged, leaving the fresh
parser untouched. -/
def initRobotParser (respect_robots : Bool) (readResult : Option RobotFileParser) :
    RobotFileParser :=
  if respect_robots then
    match readResult with
    | some rp => rp
    | none => RobotFileParser.fresh
  else RobotFileParser.fresh

/-- `WebsiteCrawler.__init__(base_url, max_pages, respect_robots, ...)`,
value layer: the constructed object when `urlparse(base_url)` at
crawler.py line 20 does not raise.  `mkCrawlerE` below carries that
raise path (an unbalanced-bracket seed makes `__init__` itself raise
`ValueError` before any fetch). -/
def mkCrawler (base_url : String) (max_pages : Nat) (respect_robots : Bool)
    (readResult : Option RobotFileParser) : WebsiteCrawler :=
  { base_url := base_url,
    base_domain := (urlparse base_url "").netloc,
    max_pages := max_pages,
    respect_robots := respect_robots,
    robotParser := initRobotParser respect_robots readResult }

/-- `WebsiteCrawler.is_allowed`. -/
def WebsiteCrawler.is_allowed (c : WebsiteCrawler) (url : String) : Bool :=
  if !c.respect_robots then true
  else c.robotParser.can_fetch url

/-- `WebsiteCrawler.is_same_domain`. -/
def WebsiteCrawler.is_same_domain (c : WebsiteCrawler) (url : String) : Bool :=
  (urlparse url "").netloc == c.base_domain

/-- `WebsiteCrawler.normalize_url`. -/
def normalize_url (url source_url : String) : String :=
  -- if not url.startswith(('http://', 'https://')): url = urljoin(source_url, url)
  let url :=
    if !(pyStartsWith url "http://" || pyStartsWith url "https://") then
      urljoin source_url url
    else url
  -- url = url.split('#')[0]
  let url := String.mk (url.toList.takeWhile (fun c => !(c == '#')))
  -- if url.endswith('/'): url = url[:-1]
  if pyEndsWith url "/" then String.mk url.toList.dropLast else url

/-- The `skip_extensions` list of `should_crawl`. -/
def skip_extensions : List String :=
  [".pdf", ".jpg", ".jpeg", ".png", ".gif", ".css", ".js",
   ".zip", ".tar", ".gz", ".mp3", ".mp4", ".avi", ".mov"]

/-- `WebsiteCrawler.should_crawl`; `visited` is the current value of the
mutable `self.visited_urls`. -/
def WebsiteCrawler.should_crawl (c : WebsiteCrawler) (visited : List String)
    (url : String) : Bool :=
  if !(pyStartsWith url "http://" || pyStartsWith url "https://") then false
  else if visited.contains url then false
  else if !c.is_same_domain url then false
  else if !c.is_allowed url then false
  else if skip_extensions.any (fun ext => pyEndsWith (pyLower url) ext) then false
  else true

/-- The token list of the `is_likely_dynamic` heuristic in `crawl`. -/
def techMarkers : List String := ["#", "vue", "react", "angular", "spa", "dashboard"]

/-- `is_likely_dynamic = any(tech in current_url for tech in [...])`. -/
def is_likely_dynamic (url : String) : Bool :=
  techMarkers.any (fun tech => pyIn tech url)

/-- Lines 114-117 of `crawler.py`: route the URL to `scrape_dynamic`
when classified dynamic, else to `scrape_static`. -/
def dispatchFetch (fs fd : Fetcher) (url : String) : Option ScrapeResult :=
  if is_likely_dynamic url then fd url else fs url

/-- Lines 126-128 of `crawler.py`: the link URLs of the fetched record
(`[]` when `structured_data` is `None`). -/
def pageLinks (result : ScrapeResult) : List String :=
  match result.structured_data with
  | some sd => sd.links.map (fun l => l.url)
  | none => []

/-- The mutable state of the crawl loop: `self.visited_urls` (a set,
modelled by the list of its elements), `self.queue` (FIFO, head =
front), `self.results`, and the local `page_count`. -/
structure CrawlState where
  visited_urls : List String
  queue : List String
  results : List PageRecord
  page_count : Nat
deriving Repr, DecidableEq

/-- The `while self.queue and page_count < self.max_pages` loop of
`WebsiteCrawler.crawl` (lines 94-147), restricted to runs in which link
processing never raises.  One recursive call is one loop iteration; a
fetch that raises is the `none` match (the exception jumps to the
`except` handler before the append).  In the source the `try` block also
covers the link normalization/filter loop, where `urlparse` can raise
`ValueError` *after* `results.append` and *before* `page_count += 1`;
that partial-iteration path (and the divergence it enables) is carried
by the faithful `crawlStep`/`crawlRun` below — this function is the
fragment of the loop in which it does not occur, which is enough for
the per-branch facts proved about it.  Termination of this fragment is
by the lexicographic measure (remaining budget, queue length). -/
def crawlLoop (c : WebsiteCrawler) (fs fd : Fetcher) : CrawlState → CrawlState
  | ⟨visited, [], results, count⟩ => ⟨visited, [], results, count⟩
  | ⟨visited, current_url :: rest, results, count⟩ =>
    if hp : c.max_pages ≤ count then ⟨visited, current_url :: rest, results, count⟩
    else if visited.contains current_url then
      -- if current_url in self.visited_urls: continue
      crawlLoop c fs fd ⟨visited, rest, results, count⟩
    else
      -- self.visited_urls.add(current_url) happens before the try block,
      -- so the updated set current_url :: visited is what every later
      -- step of the iteration (including should_crawl) observes
      match dispatchFetch fs fd current_url with
      | none =>
          -- except: print and continue with the next queue entry
          crawlLoop c fs fd ⟨current_url :: visited, rest, results, count⟩
      | some result =>
          -- append record, push surviving normalized links, count += 1
          crawlLoop c fs fd
            ⟨current_url :: visited,
             rest ++ ((pageLinks result).map (fun l => normalize_url l current_url)).filter
                (fun nl => c.should_crawl (current_url :: visited) nl),
             results ++ [{ url := current_url, content := result }],
             count + 1⟩
termination_by st => (c.max_pages - st.page_count, st.queue.length)

/-- The crawl-state fields set up by `__init__`: `visited_urls = set()`,
`queue = deque([base_url])`, `results = []`, plus `page_count = 0` from
`crawl`.  The seed enters the queue verbatim. -/
def WebsiteCrawler.initState (c : WebsiteCrawler) : CrawlState :=
  { visited_urls := [], queue := [c.base_url], results := [], page_count := 0 }

/-- `WebsiteCrawler.crawl`: run the loop from the initial state and
return `self.results`. -/
def WebsiteCrawler.crawl (c : WebsiteCrawler) (fs fd : Fetcher) : List PageRecord :=
  (crawlLoop c fs fd c.initState).results

/-! ## Concrete collaborator behaviours used in scenario runs -/

/-- A fetch collaborator that raises on every URL. -/
def failFetch : Fetcher := fun _ => none

/-- A scrape record with no structured data (hence no links). -/
def emptyRecord : ScrapeResult := { text := "", structured_data := none }

/-- A fetch collaborator that succeeds on every URL with `emptyRecord`. -/
def noLinksFetch : Fetcher := fun _ => some emptyRecord

/-- A fetch collaborator modelling a page that links back to itself. -/
def selfLoopFetch : Fetcher := fun u =>
  some { text := "", structured_data := some { links := [{ text := "self", url := u }] } }

/-- The record `selfLoopFetch` produces for the seed `http://x.com`. -/
def selfLoopRecord : ScrapeResult :=
  { text := "", structured_data := some { links := [{ text := "self", url := "http://x.com" }] } }

/-- The record of the page `http://x.com/a/`, linking back to itself
with the trailing slash kept. -/
def slashRecordA : ScrapeResult :=
  { text := "", structured_data := some { links := [{ text := "again", url := "http://x.com/a/" }] } }

/-- A two-page site: the page `http://x.com/a/` links back to itself
(with the trailing slash); `http://x.com/a` has no links. -/
def slashSiteFetch : Fetcher := fun u =>
  if u = "http://x.com/a/" then some slashRecordA
  else if u = "http://x.com/a" then some emptyRecord
  else none

/-! ## Error-aware crawler model

The defs above compute what the program computes when no `ValueError`
escapes `urlparse`.  The defs below carry those raise paths: `__init__`
can raise on the seed, and inside the crawl loop `should_crawl` (via
`is_same_domain → urlparse`) or `normalize_url` (via `urljoin`) can
raise while the links of a fetched page are processed — *after* the
page's record was appended and *before* `page_count` was incremented,
since the `try` block spans lines 107-144. -/

/-- `WebsiteCrawler.__init__` with the raise path of
`urlparse(base_url).netloc` (crawler.py line 20): for a seed whose
netloc has unbalanced brackets, construction itself raises `ValueError`
before any fetch.  (The `urljoin(base_url, "/robots.txt")` call on line
32 parses the same seed, so it cannot introduce a new raise.) -/
def mkCrawlerE (base_url : String) (max_pages : Nat) (respect_robots : Bool)
    (readResult : Option RobotFileParser) : Except Unit WebsiteCrawler :=
  match urlparseE base_url "" with
  | Except.error e => Except.error e
  | Except.ok r =>
    Except.ok
      { base_url := base_url, base_domain := r.netloc, max_pages := max_pages,
        respect_robots := respect_robots,
        robotParser := initRobotParser respect_robots readResult }

/-- `WebsiteCrawler.is_same_domain` with `urlparse`'s raise path. -/
def WebsiteCrawler.is_same_domainE (c : WebsiteCrawler) (url : String) :
    Except Unit Bool :=
  match urlparseE url "" with
  | Except.error e => Except.error e
  | Except.ok r => Except.ok (r.netloc == c.base_domain)

/-- `WebsiteCrawler.normalize_url` with `urljoin`'s raise path (taken
only when the url lacks an `http://`/`https://` prefix; the fragment and
trailing-slash steps are pure). -/
def normalize_urlE (url source_url : String) : Except Unit String :=
  match
    (if !(pyStartsWith url "http://" || pyStartsWith url "https://") then
      urljoinE source_url url
    else Except.ok url) with
  | Except.error e => Except.error e
  | Except.ok u =>
    let u := String.mk (u.toList.takeWhile (fun c => !(c == '#')))
    Except.ok (if pyEndsWith u "/" then String.mk u.toList.dropLast else u)

/-- `WebsiteCrawler.should_crawl` with the raise path of its
`is_same_domain` check.  The scheme and visited checks short-circuit
before `urlparse` is reached, exactly as in the source; `is_allowed`
cannot raise here (with `respect_robots` unset it returns immediately,
and a never-read parser answers before parsing the URL). -/
def WebsiteCrawler.should_crawlE (c : WebsiteCrawler) (visited : List String)
    (url : String) : Except Unit Bool :=
  if !(pyStartsWith url "http://" || pyStartsWith url "https://") then Except.ok false
  else if visited.contains url then Except.ok false
  else
    match c.is_same_domainE url with
    | Except.error e => Except.error e
    | Except.ok sd =>
      if !sd then Except.ok false
      else if !(c.is_allowed url) then Except.ok false
      else if skip_extensions.any (fun ext => pyEndsWith (pyLower url) ext) then
        Except.ok false
      else Except.ok true

/-- The `for link in links` loop of `crawl` (lines 131-137): each link is
normalized and filtered, survivors are appended to the queue in order;
the first link on which `normalize_url` or `should_crawl` raises aborts
the whole iteration (the `except` at line 146 catches it), keeping the
survivors pushed so far.  Returns the pushed links and whether a raise
occurred. -/
def processLinks (c : WebsiteCrawler) (visited : List String) (src : String) :
    List String → List String × Bool
  | [] => ([], false)
  | l :: ls =>
    match normalize_urlE l src with
    | Except.error _ => ([], true)
    | Except.ok nl =>
      match c.should_crawlE visited nl with
      | Except.error _ => ([], true)
      | Except.ok b =>
        let r := processLinks c visited src ls
        (if b then nl :: r.1 else r.1, r.2)

/-- Outcome of one test of the `while` condition plus (when it holds)
one iteration of the loop body. -/
inductive CrawlOutcome where
  | done (st : CrawlState)
  | next (st : CrawlState)
deriving Repr

/-- One faithful iteration of the crawl loop, including the
partial-iteration path: when a fetched page's link processing raises,
the page's record has already been appended and the survivors pushed,
but `page_count += 1` (line 140) is never reached. -/
def crawlStep (c : WebsiteCrawler) (fs fd : Fetcher) : CrawlState → CrawlOutcome
  | ⟨visited, [], results, count⟩ => CrawlOutcome.done ⟨visited, [], results, count⟩
  | ⟨visited, current_url :: rest, results, count⟩ =>
    if c.max_pages ≤ count then
      CrawlOutcome.done ⟨visited, current_url :: rest, results, count⟩
    else if visited.contains current_url then
      CrawlOutcome.next ⟨visited, rest, results, count⟩
    else
      match dispatchFetch fs fd current_url with
      | none => CrawlOutcome.next ⟨current_url :: visited, rest, results, count⟩
      | some result =>
        let pl := processLinks c (current_url :: visited) current_url (pageLinks result)
        if pl.2 then
          CrawlOutcome.next
            ⟨current_url :: visited, rest ++ pl.1,
             results ++ [{ url := current_url, content := result }], count⟩
        else
          CrawlOutcome.next
            ⟨current_url :: visited, rest ++ pl.1,
             results ++ [{ url := current_url, content := result }], count + 1⟩

/-- Iterate `crawlStep` with explicit fuel; `none` means the loop was
still running when the fuel ran out. -/
def crawlRun (c : WebsiteCrawler) (fs fd : Fetcher) : Nat → CrawlState → Option CrawlState
  | 0, _ => none
  | fuel + 1, st =>
    match crawlStep c fs fd st with
    | CrawlOutcome.done st2 => some st2
    | CrawlOutcome.next st2 => crawlRun c fs fd fuel st2

/-- The real loop terminates from `st` iff some finite fuel suffices. -/
def loopTerminates (c : WebsiteCrawler) (fs fd : Fetcher) (st : CrawlState) : Prop :=
  ∃ fuel st2, crawlRun c fs fd fuel st = some st2

/-- The collaborators only ever report links whose normalization
succeeds and parses cleanly — the situation in which no `ValueError`
can interrupt link processing. -/
def SafeLinks (fs fd : Fetcher) : Prop :=
  ∀ u res, dispatchFetch fs fd u = some res →
    ∀ l ∈ pageLinks res, ∃ nl sr,
      normalize_urlE l u = Except.ok nl ∧ urlsplitE nl "" = Except.ok sr

/-! ## Fixtures for the raising-link scenarios -/

/-- The URL family `http://x.com/p`, `http://x.com/pa`, `http://x.com/paa`,
... : same host, pairwise distinct, never classified dynamic. -/
def urlOf (k : Nat) : String :=
  String.mk ("http://x.com/p".toList ++ List.replicate k 'a')

/-- A site where every page `u` links to the fresh page `u ++ "a"` and
then to `http://[bad`, whose unbalanced bracket makes `should_crawl`
raise after the first link was already enqueued. -/
def growFetch : Fetcher := fun u =>
  some { text := "",
         structured_data := some
           { links := [{ text := "", url := u ++ "a" }, { text := "", url := "http://[bad" }] } }

/-- Crawler for the diverging chain: budget 1, seed `http://x.com/p`. -/
def growCrawler : WebsiteCrawler := mkCrawler "http://x.com/p" 1 false none

/-- A two-page site whose first page also links to `http://[bad`: the
raise skips `page_count += 1`, so with budget 1 both pages are fetched. -/
def budgetFetch : Fetcher := fun u =>
  if u = "http://x.com" then
    some { text := "",
           structured_data := some
             { links := [{ text := "", url := "http://x.com/p2" },
                         { text := "", url := "http://[bad" }] } }
  else if u = "http://x.com/p2" then some emptyRecord
  else none

end Crawler

namespace Crawler

/-! ## Unfolding lemmas: one loop iteration per branch -/

/-- Loop exit on an empty queue. -/
theorem crawlLoop_nil (c : WebsiteCrawler) (fs fd : Fetcher) (v : List String)
    (r : List PageRecord) (n : Nat) :
    crawlLoop c fs fd ⟨v, [], r, n⟩ = ⟨v, [], r, n⟩ := by
  simp [crawlLoop]

/-- Loop exit on an exhausted page budget. -/
theorem crawlLoop_stop (c : WebsiteCrawler) (fs fd : Fetcher) (v : List String)
    (u : String) (q : List String) (r : List PageRecord) (n : Nat)
    (h : c.max_pages ≤ n) :
    crawlLoop c fs fd ⟨v, u :: q, r, n⟩ = ⟨v, u :: q, r, n⟩ := by
  simp only [crawlLoop, dif_pos h]

/-- Dequeueing an already-visited URL: dropped with no fetch, no record
and no budget consumption. -/
theorem crawlLoop_skip (c : WebsiteCrawler) (fs fd : Fetcher) (v : List String)
    (u : String) (q : List String) (r : List PageRecord) (n : Nat)
    (h : ¬ c.max_pages ≤ n) (hv : v.contains u = true) :
    crawlLoop c fs fd ⟨v, u :: q, r, n⟩ = crawlLoop c fs fd ⟨v, q, r, n⟩ := by
  simp only [crawlLoop, dif_neg h, if_pos hv]

/-- A fetch that raises: the URL stays visited, nothing is appended, the
counter is unchanged, the loop continues with the rest of the queue. -/
theorem crawlLoop_fail (c : WebsiteCrawler) (fs fd : Fetcher) (v : List String)
    (u : String) (q : List String) (r : List PageRecord) (n : Nat)
    (h : ¬ c.max_pages ≤ n) (hv : v.contains u = false)
    (hf : dispatchFetch fs fd u = none) :
    crawlLoop c fs fd ⟨v, u :: q, r, n⟩ = crawlLoop c fs fd ⟨u :: v, q, r, n⟩ := by
  simp only [crawlLoop, dif_neg h, hv, Bool.false_eq_true, if_false, hf]

/-- A successful fetch: record appended, surviving links enqueued,
counter incremented. -/
theorem crawlLoop_fetch (c : WebsiteCrawler) (fs fd : Fetcher) (v : List String)
    (u : String) (q : List String) (r : List PageRecord) (n : Nat)
    (res : ScrapeResult)
    (h : ¬ c.max_pages ≤ n) (hv : v.contains u = false)
    (hf : dispatchFetch fs fd u = some res) :
    crawlLoop c fs fd ⟨v, u :: q, r, n⟩ =
      crawlLoop c fs fd
        ⟨u :: v,
         q ++ ((pageLinks res).map (fun l => normalize_url l u)).filter
            (fun nl => c.should_crawl (u :: v) nl),
         r ++ [{ url := u, content := res }], n + 1⟩ := by
  simp only [crawlLoop, dif_neg h, hv, Bool.false_eq_true, if_false, hf]

/-! ## Loop invariants -/

/-- `results` is append-only: the records present when the loop is
entered are a prefix of the records when it returns. -/
theorem results_sub (c : WebsiteCrawler) (fs fd : Fetcher) (st : CrawlState) :
    st.results <+: (crawlLoop c fs fd st).results := by
  induction st using crawlLoop.induct c fs fd with
  | case1 v r n => rw [crawlLoop_nil]
  | case2 v u q r n h => rw [crawlLoop_stop c fs fd v u q r n h]
  | case3 v u q r n h hv ih => rw [crawlLoop_skip c fs fd v u q r n h hv]; exact ih
  | case4 v u q r n h hv hf ih =>
      rw [crawlLoop_fail c fs fd v u q r n h (by simpa using hv) hf]; exact ih
  | case5 v u q r n h hv res hf ih =>
      rw [crawlLoop_fetch c fs fd v u q r n res h (by simpa using hv) hf]
      exact List.IsPrefix.trans (List.prefix_append r _) ih

/-- `visited_urls` only grows. -/
theorem visited_sub (c : WebsiteCrawler) (fs fd : Fetcher) (st : CrawlState) :
    st.visited_urls ⊆ (crawlLoop c fs fd st).visited_urls := by
  induction st using crawlLoop.induct c fs fd with
  | case1 v r n => rw [crawlLoop_nil]; exact fun a ha => ha
  | case2 v u q r n h => rw [crawlLoop_stop c fs fd v u q r n h]; exact fun a ha => ha
  | case3 v u q r n h hv ih => rw [crawlLoop_skip c fs fd v u q r n h hv]; exact ih
  | case4 v u q r n h hv hf ih =>
      rw [crawlLoop_fail c fs fd v u q r n h (by simpa using hv) hf]
      exact fun a ha => ih (List.mem_cons_of_mem u ha)
  | case5 v u q r n h hv res hf ih =>
      rw [crawlLoop_fetch c fs fd v u q r n res h (by simpa using hv) hf]
      exact fun a ha => ih (List.mem_cons_of_mem u ha)

/-- On return the loop condition has failed: the queue is empty or the
budget is reached. -/
theorem loop_exit (c : WebsiteCrawler) (fs fd : Fetcher) (st : CrawlState) :
    (crawlLoop c fs fd st).queue = [] ∨
      c.max_pages ≤ (crawlLoop c fs fd st).page_count := by
  induction st using crawlLoop.induct c fs fd with
  | case1 v r n => rw [crawlLoop_nil]; exact Or.inl rfl
  | case2 v u q r n h => rw [crawlLoop_stop c fs fd v u q r n h]; exact Or.inr h
  | case3 v u q r n h hv ih => rw [crawlLoop_skip c fs fd v u q r n h hv]; exact ih
  | case4 v u q r n h hv hf ih =>
      rw [crawlLoop_fail c fs fd v u q r n h (by simpa using hv) hf]; exact ih
  | case5 v u q r n h hv res hf ih =>
      rw [crawlLoop_fetch c fs fd v u q r n res h (by simpa using hv) hf]; exact ih

/-- `len(results) = page_count` and `page_count ≤ max_pages` are loop
invariants (a record is appended exactly when the counter increments,
and the loop body only runs while `page_count < max_pages`). -/
theorem count_inv (c : WebsiteCrawler) (fs fd : Fetcher) (st : CrawlState)
    (h1 : st.results.length = st.page_count) (h2 : st.page_count ≤ c.max_pages) :
    (crawlLoop c fs fd st).results.length = (crawlLoop c fs fd st).page_count ∧
    (crawlLoop c fs fd st).page_count ≤ c.max_pages := by
  induction st using crawlLoop.induct c fs fd with
  | case1 v r n => rw [crawlLoop_nil]; exact ⟨h1, h2⟩
  | case2 v u q r n h => rw [crawlLoop_stop c fs fd v u q r n h]; exact ⟨h1, h2⟩
  | case3 v u q r n h hv ih => rw [crawlLoop_skip c fs fd v u q r n h hv]; exact ih h1 h2
  | case4 v u q r n h hv hf ih =>
      rw [crawlLoop_fail c fs fd v u q r n h (by simpa using hv) hf]; exact ih h1 h2
  | case5 v u q r n h hv res hf ih =>
      rw [crawlLoop_fetch c fs fd v u q r n res h (by simpa using hv) hf]
      exact ih (by simp [h1]) (by show n + 1 ≤ c.max_pages; omega)

/-- Deduplication invariant: every recorded URL is in `visited_urls`, and
the recorded URLs are pairwise distinct. -/
theorem dedup_inv (c : WebsiteCrawler) (fs fd : Fetcher) (st : CrawlState)
    (h1 : ∀ rec ∈ st.results, rec.url ∈ st.visited_urls)
    (h2 : (st.results.map PageRecord.url).Nodup) :
    (∀ rec ∈ (crawlLoop c fs fd st).results,
        rec.url ∈ (crawlLoop c fs fd st).visited_urls) ∧
    ((crawlLoop c fs fd st).results.map PageRecord.url).Nodup := by
  induction st using crawlLoop.induct c fs fd with
  | case1 v r n => rw [crawlLoop_nil]; exact ⟨h1, h2⟩
  | case2 v u q r n h => rw [crawlLoop_stop c fs fd v u q r n h]; exact ⟨h1, h2⟩
  | case3 v u q r n h hv ih => rw [crawlLoop_skip c fs fd v u q r n h hv]; exact ih h1 h2
  | case4 v u q r n h hv hf ih =>
      rw [crawlLoop_fail c fs fd v u q r n h (by simpa using hv) hf]
      exact ih (fun rec hrec => List.mem_cons_of_mem u (h1 rec hrec)) h2
  | case5 v u q r n h hv res hf ih =>
      rw [crawlLoop_fetch c fs fd v u q r n res h (by simpa using hv) hf]
      have hu : u ∉ v := fun hm => by
        simp [List.contains, List.elem_iff] at hv
        exact hv hm
      refine ih ?_ ?_
      · intro rec hrec
        rcases List.mem_append.1 hrec with hold | hnew
        · exact List.mem_cons_of_mem u (h1 rec hold)
        · simp only [List.mem_singleton] at hnew
          subst hnew
          exact List.mem_cons_self u v
      · have hmap : (r ++ [PageRecord.mk u res]).map PageRecord.url
            = r.map PageRecord.url ++ [u] := by simp
        show ((r ++ [PageRecord.mk u res]).map PageRecord.url).Nodup
        rw [hmap]
        refine List.Nodup.append h2 (List.nodup_singleton u) ?_
        intro a ha hb
        simp only [List.mem_singleton] at hb
        subst hb
        rcases List.mem_map.1 ha with ⟨rec, hrec, hurl⟩
        exact hu (hurl ▸ h1 rec hrec)

end Crawler

namespace Crawler

open PyUrllib

/-! ## Small string facts used below -/

/-- Rebuilding a string from its character list is the identity. -/
theorem mk_toList (s : String) : String.mk s.toList = s := rfl

/-! ## Claim theorems -/

/-- C2: when `respect_robots` is enabled and `robot_parser.read()` raises
(the exception is caught in `__init__`), the spec claims the policy fails
open (allow-all).  The code does the opposite: a `RobotFileParser` that
was never successfully read has `last_checked = 0`, so `can_fetch`
answers `False` for every URL; `is_allowed` therefore denies every URL
and `should_crawl` rejects every candidate link. -/
theorem robots_read_failure_denies_all (base url : String) (mp : Nat)
    (visited : List String) :
    (mkCrawler base mp true none).robotParser.can_fetch url = false ∧
    (mkCrawler base mp true none).is_allowed url = false ∧
    (mkCrawler base mp true none).should_crawl visited url = false := by
  have hD : (mkCrawler base mp true none).is_allowed url = false := rfl
  refine ⟨rfl, hD, ?_⟩
  cases hA : (pyStartsWith url "http://" || pyStartsWith url "https://") <;>
  cases hB : visited.contains url <;>
  cases hC : (mkCrawler base mp true none).is_same_domain url <;>
  cases hE : skip_extensions.any (fun ext => pyEndsWith (pyLower url) ext) <;>
    simp [WebsiteCrawler.should_crawl, hA, hB, hC, hD, hE]

/-- C4: `normalize_url` resolves scheme-less URLs against the source
page, strips any `#` fragment unconditionally and exactly one trailing
slash: `http://x.com/a/` and `http://x.com/a` both canonicalize to
`http://x.com/a` for any source, `/b` on `http://x.com/a` resolves to
`http://x.com/b`, a double trailing slash loses only one slash, and an
absolute http(s) URL with no fragment and no trailing slash is returned
verbatim (no case folding, query reordering or port stripping). -/
theorem normalize_url_spec :
    (∀ src, normalize_url "http://x.com/a/" src = "http://x.com/a") ∧
    (∀ src, normalize_url "http://x.com/a" src = "http://x.com/a") ∧
    normalize_url "/b" "http://x.com/a" = "http://x.com/b" ∧
    (∀ src, normalize_url "http://x.com/p#sec" src = "http://x.com/p") ∧
    (∀ src, normalize_url "http://x.com/a//" src = "http://x.com/a/") ∧
    (∀ url src, (pyStartsWith url "http://" || pyStartsWith url "https://") = true →
        url.toList.all (fun c => !(c == '#')) = true →
        pyEndsWith url "/" = false →
        normalize_url url src = url) := by
  refine ⟨fun src => rfl, fun src => rfl, rfl, fun src => rfl, fun src => rfl, ?_⟩
  intro url src hs hnf hslash
  have ht : url.toList.takeWhile (fun c => !(c == '#')) = url.toList :=
    List.takeWhile_eq_self_iff.mpr (by simpa [List.all_eq_true] using hnf)
  unfold normalize_url
  simp only [hs, Bool.not_true, Bool.false_eq_true, if_false, ht, mk_toList, hslash]

/-- Value-layer characterization of `should_crawl = false`: used under a
parse-success hypothesis by the claim about the error-aware check. -/
theorem should_crawl_false_iff (c : WebsiteCrawler) (visited : List String) (url : String) :
    (c.should_crawl visited url = false ↔
      ((pyStartsWith url "http://" || pyStartsWith url "https://") = false ∨
       url ∈ visited ∨
       (urlparse url "").netloc ≠ c.base_domain ∨
       c.is_allowed url = false ∨
       (∃ ext ∈ skip_extensions, pyEndsWith (pyLower url) ext = true))) ∧
    (pyEndsWith (pyLower url) ".pdf" = true → c.should_crawl visited url = false) := by
  have hvis : (visited.contains url = true) ↔ url ∈ visited := by
    simp [List.contains, List.elem_iff]
  have hdom : (c.is_same_domain url = false) ↔ (urlparse url "").netloc ≠ c.base_domain := by
    simp [WebsiteCrawler.is_same_domain]
  have hany : (skip_extensions.any (fun ext => pyEndsWith (pyLower url) ext) = true) ↔
      ∃ ext ∈ skip_extensions, pyEndsWith (pyLower url) ext = true :=
    List.any_eq_true
  constructor
  · rw [← hvis, ← hdom, ← hany]
    cases hA : (pyStartsWith url "http://" || pyStartsWith url "https://") <;>
    cases hB : visited.contains url <;>
    cases hC : c.is_same_domain url <;>
    cases hD : c.is_allowed url <;>
    cases hE : skip_extensions.any (fun ext => pyEndsWith (pyLower url) ext) <;>
      simp_all [WebsiteCrawler.should_crawl]
  · intro hpdf
    have hE : skip_extensions.any (fun ext => pyEndsWith (pyLower url) ext) = true :=
      List.any_eq_true.mpr ⟨".pdf", by simp [skip_extensions], hpdf⟩
    cases hA : (pyStartsWith url "http://" || pyStartsWith url "https://") <;>
    cases hB : visited.contains url <;>
    cases hC : c.is_same_domain url <;>
    cases hD : c.is_allowed url <;>
      simp [WebsiteCrawler.should_crawl, hA, hB, hC, hD, hE]

/-- C10: the fetch dispatcher classifies a URL as dynamic exactly when it
contains one of the six tokens `#`, `vue`, `react`, `angular`, `spa`,
`dashboard` as a substring, and routes dynamic URLs to the rendering
collaborator `fd` and all others to the static collaborator `fs`. -/
theorem fetch_dispatch_heuristic (fs fd : Fetcher) (url : String) :
    (is_likely_dynamic url = true ↔ ∃ tech ∈ techMarkers, tech.toList <:+: url.toList) ∧
    (is_likely_dynamic url = true → dispatchFetch fs fd url = fd url) ∧
    (is_likely_dynamic url = false → dispatchFetch fs fd url = fs url) := by
  refine ⟨?_, ?_, ?_⟩
  · simp [is_likely_dynamic, List.any_eq_true, pyIn]
  · intro h; simp [dispatchFetch, h]
  · intro h; simp [dispatchFetch, h]

/-- C10 witness: `http://x.com/dashboard` contains the token `dashboard`
and is routed to the rendering collaborator. -/
theorem fetch_dispatch_heuristic_witness :
    dispatchFetch failFetch noLinksFetch "http://x.com/dashboard"
      = noLinksFetch "http://x.com/dashboard" :=
  (fetch_dispatch_heuristic failFetch noLinksFetch "http://x.com/dashboard").2.1 (by decide)

end Crawler

namespace Crawler

/-- C3: when the fetch for the dequeued URL raises (`dispatchFetch`
returns `none`), the loop continues with the remaining queue: no record
is appended for that URL in this iteration, the page counter is
unchanged, the URL stays in `visited_urls`, and all previously appended
records are retained as a prefix of the final results.  The equality of
the two `crawlLoop` applications is the "error does not escape" fact:
the crawl goes on instead of aborting. -/
theorem fetch_failure_skips_page (c : WebsiteCrawler) (fs fd : Fetcher)
    (v : List String) (u : String) (q : List String) (r : List PageRecord) (n : Nat)
    (hn : n < c.max_pages) (hv : v.contains u = false)
    (hf : dispatchFetch fs fd u = none) :
    crawlLoop c fs fd ⟨v, u :: q, r, n⟩ = crawlLoop c fs fd ⟨u :: v, q, r, n⟩ ∧
    r <+: (crawlLoop c fs fd ⟨v, u :: q, r, n⟩).results ∧
    u ∈ (crawlLoop c fs fd ⟨v, u :: q, r, n⟩).visited_urls := by
  have hstep := crawlLoop_fail c fs fd v u q r n (Nat.not_le.mpr hn) hv hf
  refine ⟨hstep, ?_, ?_⟩
  · rw [hstep]; exact results_sub c fs fd ⟨u :: v, q, r, n⟩
  · rw [hstep]
    exact visited_sub c fs fd ⟨u :: v, q, r, n⟩ (List.mem_cons_self u v)

/-- C3 witness: concrete failing fetch of `http://x.com/p` with budget
5; the loop equals the loop on the remaining (empty) queue with the URL
marked visited. -/
theorem fetch_failure_skips_page_witness :
    (0 : Nat) < (mkCrawler "http://x.com" 5 false none).max_pages ∧
    ([] : List String).contains "http://x.com/p" = false ∧
    dispatchFetch failFetch failFetch "http://x.com/p" = none ∧
    crawlLoop (mkCrawler "http://x.com" 5 false none) failFetch failFetch
        ⟨[], ["http://x.com/p"], [], 0⟩
      = crawlLoop (mkCrawler "http://x.com" 5 false none) failFetch failFetch
        ⟨["http://x.com/p"], [], [], 0⟩ :=
  ⟨by decide, by decide, by decide,
   (fetch_failure_skips_page (mkCrawler "http://x.com" 5 false none) failFetch failFetch
      [] "http://x.com/p" [] [] 0 (by decide) (by decide) (by decide)).1⟩

/-- C6: at most one record per URL string ever enters `results` — the
recorded URLs of the final state are pairwise distinct (starting from
any state whose records are covered by `visited_urls` and distinct, in
particular from the initial crawl state), and a dequeued URL that is
already visited is dropped: no fetch, no record, no budget consumption,
identical continuation on the remaining queue. -/
theorem crawl_results_dedup (c : WebsiteCrawler) (fs fd : Fetcher) (st : CrawlState)
    (h1 : ∀ rec ∈ st.results, rec.url ∈ st.visited_urls)
    (h2 : (st.results.map PageRecord.url).Nodup) :
    ((crawlLoop c fs fd st).results.map PageRecord.url).Nodup ∧
    ((c.crawl fs fd).map PageRecord.url).Nodup ∧
    (∀ u q, st.queue = u :: q → st.visited_urls.contains u = true →
      st.page_count < c.max_pages →
      crawlLoop c fs fd st = crawlLoop c fs fd ⟨st.visited_urls, q, st.results, st.page_count⟩) := by
  refine ⟨(dedup_inv c fs fd st h1 h2).2, ?_, ?_⟩
  · exact (dedup_inv c fs fd c.initState (by simp [WebsiteCrawler.initState])
      (by simp [WebsiteCrawler.initState])).2
  · intro u q hq hvu hn
    obtain ⟨v, qq, r, n⟩ := st
    have hqq : qq = u :: q := hq
    subst hqq
    exact crawlLoop_skip c fs fd v u q r n (Nat.not_le.mpr hn) hvu

/-- C6 witness: with the seed already in `visited_urls`, dequeueing it
again is a pure skip. -/
theorem crawl_results_dedup_witness :
    (∀ rec ∈ ([] : List PageRecord), rec.url ∈ ["http://x.com"]) ∧
    crawlLoop (mkCrawler "http://x.com" 5 false none) failFetch failFetch
        ⟨["http://x.com"], ["http://x.com"], [], 0⟩
      = crawlLoop (mkCrawler "http://x.com" 5 false none) failFetch failFetch
        ⟨["http://x.com"], [], [], 0⟩ :=
  ⟨by simp,
   (crawl_results_dedup (mkCrawler "http://x.com" 5 false none) failFetch failFetch
      ⟨["http://x.com"], ["http://x.com"], [], 0⟩ (by simp) (by simp)).2.2
     "http://x.com" [] rfl (by decide) (by decide)⟩

end Crawler
namespace Crawler

open PyUrllib

/-- C4 witness: an absolute https URL with mixed case, userinfo, an
explicit port and an unsorted query string is returned verbatim. -/
theorem normalize_url_spec_witness :
    normalize_url "https://User@X.com:8080/Path?b=2&a=1" "http://other.org/s"
      = "https://User@X.com:8080/Path?b=2&a=1" :=
  normalize_url_spec.2.2.2.2.2 "https://User@X.com:8080/Path?b=2&a=1" "http://other.org/s"
    (by decide) (by decide) (by decide)

/-- C7 counterexample: the claim says a malformed seed aborts the job
before any fetch with no partial results.  In the code no seed
validation exists: the seed string `"not a url"` is enqueued and fetched
like any URL, and when the collaborator returns a record the crawl
completes normally with that record in `results`. -/
theorem malformed_seed_reaches_fetch :
    ((mkCrawler "not a url" 5 false none).crawl noLinksFetch noLinksFetch).map PageRecord.url
      = ["not a url"] := by
  have s1 : crawlLoop (mkCrawler "not a url" 5 false none) noLinksFetch noLinksFetch
      ⟨[], ["not a url"], [], 0⟩
    = crawlLoop (mkCrawler "not a url" 5 false none) noLinksFetch noLinksFetch
      ⟨["not a url"], [], [PageRecord.mk "not a url" emptyRecord], 1⟩ := by
    rw [crawlLoop_fetch (mkCrawler "not a url" 5 false none) noLinksFetch noLinksFetch
      [] "not a url" [] [] 0 emptyRecord (by decide) (by decide) (by decide)]
    rfl
  show (crawlLoop (mkCrawler "not a url" 5 false none) noLinksFetch noLinksFetch
      ⟨[], ["not a url"], [], 0⟩).results.map PageRecord.url = _
  rw [s1, crawlLoop_nil]
  rfl

/-- C9: the seed enters the queue (and later the visited set) exactly as
supplied, not through the normalizer; any http(s) URL with a trailing
slash differs from its own normalization, so a seed such as
`http://x.com/a/` and a discovered link normalizing to `http://x.com/a`
are distinct crawl targets, and the concrete run fetches both as two
separate pages. -/
theorem seed_not_normalized :
    (∀ (c : WebsiteCrawler), c.initState.queue = [c.base_url] ∧
      c.initState.visited_urls = []) ∧
    (∀ url src, (pyStartsWith url "http://" || pyStartsWith url "https://") = true →
        pyEndsWith url "/" = true → normalize_url url src ≠ url) ∧
    ((mkCrawler "http://x.com/a/" 5 false none).crawl slashSiteFetch slashSiteFetch).map
        PageRecord.url = ["http://x.com/a/", "http://x.com/a"] := by
  refine ⟨fun c => ⟨rfl, rfl⟩, ?_, ?_⟩
  · intro url src hs hsl hEq
    have hsuf : ['/'] <:+ url.toList := by
      have h2 := of_decide_eq_true hsl
      simpa using h2
    have hlen1 : 1 ≤ url.toList.length := by
      simpa using List.IsSuffix.length_le hsuf
    have htwlen : (url.toList.takeWhile (fun c => !(c == '#'))).length ≤ url.toList.length :=
      List.IsPrefix.length_le ( List.takeWhile_prefix _)
    unfold normalize_url at hEq
    rw [hs] at hEq
    simp only [Bool.not_true, Bool.false_eq_true, if_false] at hEq
    by_cases hw : pyEndsWith (String.mk (url.toList.takeWhile (fun c => !(c == '#')))) "/" = true
    · rw [if_pos hw] at hEq
      have hx : (url.toList.takeWhile (fun c => !(c == '#'))).dropLast = url.toList :=
        congrArg String.toList hEq
      have hxlen := congrArg List.length hx
      rw [List.length_dropLast] at hxlen
      omega
    · rw [if_neg hw] at hEq
      exact hw (by rw [hEq]; exact hsl)
  · have s1 : crawlLoop (mkCrawler "http://x.com/a/" 5 false none) slashSiteFetch slashSiteFetch
        ⟨[], ["http://x.com/a/"], [], 0⟩
      = crawlLoop (mkCrawler "http://x.com/a/" 5 false none) slashSiteFetch slashSiteFetch
        ⟨["http://x.com/a/"], ["http://x.com/a"],
         [PageRecord.mk "http://x.com/a/" slashRecordA], 1⟩ := by
      rw [crawlLoop_fetch (mkCrawler "http://x.com/a/" 5 false none) slashSiteFetch slashSiteFetch
        [] "http://x.com/a/" [] [] 0 slashRecordA (by decide) (by decide) (by decide)]
      rfl
    have s2 : crawlLoop (mkCrawler "http://x.com/a/" 5 false none) slashSiteFetch slashSiteFetch
        ⟨["http://x.com/a/"], ["http://x.com/a"],
         [PageRecord.mk "http://x.com/a/" slashRecordA], 1⟩
      = crawlLoop (mkCrawler "http://x.com/a/" 5 false none) slashSiteFetch slashSiteFetch
        ⟨["http://x.com/a", "http://x.com/a/"], [],
         [PageRecord.mk "http://x.com/a/" slashRecordA,
          PageRecord.mk "http://x.com/a" emptyRecord], 2⟩ := by
      rw [crawlLoop_fetch (mkCrawler "http://x.com/a/" 5 false none) slashSiteFetch slashSiteFetch
        ["http://x.com/a/"] "http://x.com/a" []
        [PageRecord.mk "http://x.com/a/" slashRecordA] 1 emptyRecord
        (by decide) (by decide) (by decide)]
      rfl
    show (crawlLoop (mkCrawler "http://x.com/a/" 5 false none) slashSiteFetch slashSiteFetch
        ⟨[], ["http://x.com/a/"], [], 0⟩).results.map PageRecord.url = _
    rw [s1, s2, crawlLoop_nil]
    rfl

/-- C9 witness: a trailing-slash http URL is changed by the normalizer,
so the stored seed and the canonical form differ. -/
theorem seed_not_normalized_witness :
    normalize_url "http://x.com/a/" "http://other.org" ≠ "http://x.com/a/" :=
  seed_not_normalized.2.1 "http://x.com/a/" "http://other.org" (by decide) (by decide)

end Crawler

namespace PyUrllib

/-! ## Bridging the error-aware layer to the value layer -/

/-- When `urlsplitE` succeeds its value is `urlsplit`'s. -/
theorem urlsplitE_ok {s d : String} {r : SplitResult}
    (h : urlsplitE s d = Except.ok r) : urlsplit s d = r := by
  simp only [urlsplitE] at h
  split at h
  · simp at h
  · split at h
    · simp at h
    · simpa using h

/-- `urlparseE` is `urlsplitE` followed by the pure `;params` step. -/
theorem urlparseE_eq (s d : String) :
    urlparseE s d = (urlsplitE s d).map urlparseOf := by
  unfold urlparseE
  cases urlsplitE s d <;> rfl

/-- The `;params` step never touches the netloc. -/
theorem urlparseOf_netloc (s : SplitResult) : (urlparseOf s).netloc = s.netloc := by
  unfold urlparseOf
  split <;> rfl

end PyUrllib

namespace Crawler

open PyUrllib

/-- On a URL `urlsplit` accepts, the error-aware domain check returns
what the value-layer check computes. -/
theorem is_same_domainE_of_ok {c : WebsiteCrawler} {url : String} {sr : SplitResult}
    (h : urlsplitE url "" = Except.ok sr) :
    c.is_same_domainE url = Except.ok (c.is_same_domain url) := by
  have hs : urlsplit url "" = sr := urlsplitE_ok h
  simp [WebsiteCrawler.is_same_domainE, urlparseE_eq, h, Except.map,
    WebsiteCrawler.is_same_domain, urlparse, hs]

/-- On a URL `urlsplit` accepts, `should_crawlE` returns what the
value-layer `should_crawl` computes. -/
theorem should_crawlE_of_ok {c : WebsiteCrawler} {visited : List String} {url : String}
    {sr : SplitResult} (h : urlsplitE url "" = Except.ok sr) :
    c.should_crawlE visited url = Except.ok (c.should_crawl visited url) := by
  have hd := @is_same_domainE_of_ok c url sr h
  cases hA : (pyStartsWith url "http://" || pyStartsWith url "https://") <;>
  cases hB : visited.contains url <;>
  cases hC : c.is_same_domain url <;>
  cases hD : c.is_allowed url <;>
  cases hE : skip_extensions.any (fun ext => pyEndsWith (pyLower url) ext) <;>
    simp [WebsiteCrawler.should_crawlE, WebsiteCrawler.should_crawl, hA, hB, hC, hD, hE, hd] <;>
    (split <;> simp_all)

/-! ## One-iteration lemmas for the faithful step -/

/-- Exit on an empty queue. -/
theorem crawlStep_nil (c : WebsiteCrawler) (fs fd : Fetcher) (v : List String)
    (r : List PageRecord) (n : Nat) :
    crawlStep c fs fd ⟨v, [], r, n⟩ = CrawlOutcome.done ⟨v, [], r, n⟩ := rfl

/-- Exit on an exhausted budget. -/
theorem crawlStep_stop (c : WebsiteCrawler) (fs fd : Fetcher) (v : List String)
    (u : String) (q : List String) (r : List PageRecord) (n : Nat)
    (h : c.max_pages ≤ n) :
    crawlStep c fs fd ⟨v, u :: q, r, n⟩ = CrawlOutcome.done ⟨v, u :: q, r, n⟩ := by
  simp only [crawlStep, if_pos h]

/-- Dequeueing a visited URL is a pure skip. -/
theorem crawlStep_skip (c : WebsiteCrawler) (fs fd : Fetcher) (v : List String)
    (u : String) (q : List String) (r : List PageRecord) (n : Nat)
    (h : ¬ c.max_pages ≤ n) (hv : v.contains u = true) :
    crawlStep c fs fd ⟨v, u :: q, r, n⟩ = CrawlOutcome.next ⟨v, q, r, n⟩ := by
  simp only [crawlStep, if_neg h, if_pos hv]

/-- A raising fetch: visited, nothing else. -/
theorem crawlStep_fail (c : WebsiteCrawler) (fs fd : Fetcher) (v : List String)
    (u : String) (q : List String) (r : List PageRecord) (n : Nat)
    (h : ¬ c.max_pages ≤ n) (hv : v.contains u = false)
    (hf : dispatchFetch fs fd u = none) :
    crawlStep c fs fd ⟨v, u :: q, r, n⟩ = CrawlOutcome.next ⟨u :: v, q, r, n⟩ := by
  simp only [crawlStep, if_neg h, hv, Bool.false_eq_true, if_false, hf]

/-- A successful fetch whose link processing completes: record appended,
survivors pushed, counter incremented. -/
theorem crawlStep_fetch_ok (c : WebsiteCrawler) (fs fd : Fetcher) (v : List String)
    (u : String) (q : List String) (r : List PageRecord) (n : Nat)
    (res : ScrapeResult) (new : List String)
    (h : ¬ c.max_pages ≤ n) (hv : v.contains u = false)
    (hf : dispatchFetch fs fd u = some res)
    (hpl : processLinks c (u :: v) u (pageLinks res) = (new, false)) :
    crawlStep c fs fd ⟨v, u :: q, r, n⟩ =
      CrawlOutcome.next ⟨u :: v, q ++ new, r ++ [{ url := u, content := res }], n + 1⟩ := by
  simp only [crawlStep, if_neg h, hv, Bool.false_eq_true, if_false, hf, hpl]

/-- A successful fetch whose link processing raises: the record is
already appended and the survivors pushed, but `page_count += 1` is
never reached. -/
theorem crawlStep_fetch_raise (c : WebsiteCrawler) (fs fd : Fetcher) (v : List String)
    (u : String) (q : List String) (r : List PageRecord) (n : Nat)
    (res : ScrapeResult) (new : List String)
    (h : ¬ c.max_pages ≤ n) (hv : v.contains u = false)
    (hf : dispatchFetch fs fd u = some res)
    (hpl : processLinks c (u :: v) u (pageLinks res) = (new, true)) :
    crawlStep c fs fd ⟨v, u :: q, r, n⟩ =
      CrawlOutcome.next ⟨u :: v, q ++ new, r ++ [{ url := u, content := res }], n⟩ := by
  simp only [crawlStep, if_neg h, hv, Bool.false_eq_true, if_false, hf, hpl, if_true]

end Crawler

namespace Crawler

open PyUrllib

/-- The step exits exactly in the states the `while` guard rejects:
the state is returned unchanged and the queue is empty or the budget
is exhausted. -/
theorem crawlStep_done_char (c : WebsiteCrawler) (fs fd : Fetcher)
    (st st2 : CrawlState) (h : crawlStep c fs fd st = CrawlOutcome.done st2) :
    st2 = st ∧ (st.queue = [] ∨ c.max_pages ≤ st.page_count) := by
  obtain ⟨v, q, r, n⟩ := st
  cases q with
  | nil =>
    rw [crawlStep_nil] at h
    injection h with h2
    exact ⟨h2.symm, Or.inl rfl⟩
  | cons u rest =>
    by_cases hm : c.max_pages ≤ n
    · rw [crawlStep_stop _ _ _ _ _ _ _ _ hm] at h
      injection h with h2
      exact ⟨h2.symm, Or.inr hm⟩
    · exfalso
      by_cases hv : v.contains u = true
      · rw [crawlStep_skip _ _ _ _ _ _ _ _ hm hv] at h
        simp at h
      · have hv' : v.contains u = false := by
          cases hcc : v.contains u
          · rfl
          · exact absurd hcc hv
        cases hf : dispatchFetch fs fd u with
        | none =>
          rw [crawlStep_fail _ _ _ _ _ _ _ _ hm hv' hf] at h
          simp at h
        | some res =>
          rcases hpl : processLinks c (u :: v) u (pageLinks res) with ⟨new, raised⟩
          cases raised
          · rw [crawlStep_fetch_ok _ _ _ _ _ _ _ _ _ _ hm hv' hf hpl] at h
            simp at h
          · rw [crawlStep_fetch_raise _ _ _ _ _ _ _ _ _ _ hm hv' hf hpl] at h
            simp at h

/-- When every reachable link normalizes and parses cleanly, link
processing never raises. -/
theorem processLinks_no_raise (c : WebsiteCrawler) (visited : List String) (u : String)
    (links : List String)
    (hgood : ∀ l ∈ links, ∃ nl sr, normalize_urlE l u = Except.ok nl ∧
      urlsplitE nl "" = Except.ok sr) :
    (processLinks c visited u links).2 = false := by
  induction links with
  | nil => rfl
  | cons l ls ih =>
    obtain ⟨nl, sr, hn, hs⟩ := hgood l (List.mem_cons_self l ls)
    have hsc := @should_crawlE_of_ok c visited nl sr hs
    simp only [processLinks, hn, hsc]
    exact ih (fun x hx => hgood x (List.mem_cons_of_mem _ hx))

/-- Under `SafeLinks`, a `next` transition preserves the budget
invariant `len(results) = page_count ≤ max_pages`. -/
theorem crawlStep_next_inv (c : WebsiteCrawler) (fs fd : Fetcher)
    (hsafe : SafeLinks fs fd) (st st2 : CrawlState)
    (h : crawlStep c fs fd st = CrawlOutcome.next st2)
    (h1 : st.results.length = st.page_count) (h2 : st.page_count ≤ c.max_pages) :
    st2.results.length = st2.page_count ∧ st2.page_count ≤ c.max_pages := by
  obtain ⟨v, q, r, n⟩ := st
  cases q with
  | nil =>
    rw [crawlStep_nil] at h
    simp at h
  | cons u rest =>
    by_cases hm : c.max_pages ≤ n
    · rw [crawlStep_stop _ _ _ _ _ _ _ _ hm] at h
      simp at h
    · by_cases hv : v.contains u = true
      · rw [crawlStep_skip _ _ _ _ _ _ _ _ hm hv] at h
        injection h with h3
        subst h3
        exact ⟨h1, h2⟩
      · have hv' : v.contains u = false := by
          cases hcc : v.contains u
          · rfl
          · exact absurd hcc hv
        cases hf : dispatchFetch fs fd u with
        | none =>
          rw [crawlStep_fail _ _ _ _ _ _ _ _ hm hv' hf] at h
          injection h with h3
          subst h3
          exact ⟨h1, h2⟩
        | some res =>
          rcases hpl : processLinks c (u :: v) u (pageLinks res) with ⟨new, raised⟩
          have hr0 : raised = false := by
            have hnr := processLinks_no_raise c (u :: v) u (pageLinks res)
              (fun l hl => hsafe u res hf l hl)
            rw [hpl] at hnr
            exact hnr
          subst hr0
          rw [crawlStep_fetch_ok _ _ _ _ _ _ _ _ _ _ hm hv' hf hpl] at h
          injection h with h3
          subst h3
          refine ⟨?_, ?_⟩
          · simp only [List.length_append, List.length_cons, List.length_nil]
            simp only at h1
            omega
          · simp only at h2 ⊢
            omega

/-- A state whose step exits terminates in one unit of fuel. -/
theorem loopTerminates_of_done {c : WebsiteCrawler} {fs fd : Fetcher}
    {st st2 : CrawlState} (h : crawlStep c fs fd st = CrawlOutcome.done st2) :
    loopTerminates c fs fd st :=
  ⟨1, st2, by simp [crawlRun, h]⟩

/-- Termination propagates backwards along a `next` transition. -/
theorem loopTerminates_of_next {c : WebsiteCrawler} {fs fd : Fetcher}
    {st st2 : CrawlState} (h : crawlStep c fs fd st = CrawlOutcome.next st2)
    (ht : loopTerminates c fs fd st2) : loopTerminates c fs fd st := by
  obtain ⟨fuel, st3, hr⟩ := ht
  exact ⟨fuel + 1, st3, by simp [crawlRun, h, hr]⟩

end Crawler

namespace Crawler

open PyUrllib

/-- Under `SafeLinks` every state terminates: induction on the budget
remaining, and inside a fixed budget on the queue length (a skip or a
failed fetch shortens the queue; a successful fetch consumes budget). -/
theorem terminates_aux (c : WebsiteCrawler) (fs fd : Fetcher) (hsafe : SafeLinks fs fd) :
    ∀ b L (st : CrawlState), c.max_pages - st.page_count ≤ b → st.queue.length ≤ L →
      loopTerminates c fs fd st := by
  intro b
  induction b with
  | zero =>
    intro L st h1 _
    obtain ⟨v, q, r, n⟩ := st
    have hm : c.max_pages ≤ n := by
      simp only at h1
      omega
    cases q with
    | nil => exact loopTerminates_of_done (crawlStep_nil c fs fd v r n)
    | cons u rest => exact loopTerminates_of_done (crawlStep_stop c fs fd v u rest r n hm)
  | succ b ihb =>
    intro L
    induction L with
    | zero =>
      intro st _ h2
      obtain ⟨v, q, r, n⟩ := st
      have hq : q = [] := by
        simp only at h2
        exact List.eq_nil_of_length_eq_zero (Nat.le_zero.mp h2)
      subst hq
      exact loopTerminates_of_done (crawlStep_nil c fs fd v r n)
    | succ L ihL =>
      intro st h1 h2
      obtain ⟨v, q, r, n⟩ := st
      cases q with
      | nil => exact loopTerminates_of_done (crawlStep_nil c fs fd v r n)
      | cons u rest =>
        by_cases hm : c.max_pages ≤ n
        · exact loopTerminates_of_done (crawlStep_stop c fs fd v u rest r n hm)
        · simp only at h1 h2
          by_cases hv : v.contains u = true
          · refine loopTerminates_of_next (crawlStep_skip c fs fd v u rest r n hm hv) ?_
            refine ihL ⟨v, rest, r, n⟩ ?_ ?_
            · simpa using h1
            · simp only [List.length_cons] at h2
              simp only
              omega
          · have hv' : v.contains u = false := by
              cases hcc : v.contains u
              · rfl
              · exact absurd hcc hv
            cases hf : dispatchFetch fs fd u with
            | none =>
              refine loopTerminates_of_next (crawlStep_fail c fs fd v u rest r n hm hv' hf) ?_
              refine ihL ⟨u :: v, rest, r, n⟩ ?_ ?_
              · simpa using h1
              · simp only [List.length_cons] at h2
                simp only
                omega
            | some res =>
              rcases hpl : processLinks c (u :: v) u (pageLinks res) with ⟨new, raised⟩
              have hr0 : raised = false := by
                have hnr := processLinks_no_raise c (u :: v) u (pageLinks res)
                  (fun l hl => hsafe u res hf l hl)
                rw [hpl] at hnr
                exact hnr
              subst hr0
              refine loopTerminates_of_next
                (crawlStep_fetch_ok c fs fd v u rest r n res new hm hv' hf hpl) ?_
              refine ihb (rest ++ new).length
                ⟨u :: v, rest ++ new, r ++ [{ url := u, content := res }], n + 1⟩ ?_ (le_refl _)
              simp only
              omega

end Crawler

namespace Crawler

open PyUrllib

/-! ## The growing-URL family used for the divergence example -/

theorem urlOf_toList (k : Nat) :
    (urlOf k).toList = "http://x.com/p".toList ++ List.replicate k 'a' := rfl

theorem urlOf_length (k : Nat) : (urlOf k).toList.length = 14 + k := by
  rw [urlOf_toList, List.length_append, List.length_replicate]
  have h14 : ("http://x.com/p").toList.length = 14 := rfl
  rw [h14]

theorem urlOf_mem {k : Nat} {ch : Char} (h : ch ∈ (urlOf k).toList) :
    ch ∈ ("http://x.com/p").toList ∨ ch = 'a' := by
  rw [urlOf_toList] at h
  rcases List.mem_append.mp h with h | h
  · exact Or.inl h
  · exact Or.inr (List.eq_of_mem_replicate h)

theorem urlOf_succ_append (k : Nat) : urlOf k ++ "a" = urlOf (k + 1) := by
  apply congrArg String.mk
  show (urlOf k).toList ++ "a".toList = (urlOf (k + 1)).toList
  rw [urlOf_toList, urlOf_toList, List.append_assoc]
  rw [show ("a").toList = ['a'] from rfl, ← List.replicate_succ' k 'a']

theorem pyStartsWith_urlOf (k : Nat) : pyStartsWith (urlOf k) "http://" = true := by
  rw [pyStartsWith, decide_eq_true_eq]
  refine ⟨("x.com/p").toList ++ List.replicate k 'a', ?_⟩
  rw [urlOf_toList, ← List.append_assoc]
  rfl

theorem noHash_urlOf (k : Nat) : ∀ ch ∈ (urlOf k).toList, (!(ch == '#')) = true := by
  intro ch h
  rcases urlOf_mem h with h | h
  · have hne : ch ≠ '#' := by
      intro hcon
      subst hcon
      exact absurd h (by decide)
    simpa using hne
  · subst h
    decide

theorem getLastQ_urlOf (k : Nat) : (urlOf (k + 1)).toList.getLast? = some 'a' := by
  rw [urlOf_toList, List.replicate_succ', ← List.append_assoc]
  exact List.getLast?_concat _

/-- A string whose last character is `a` does not end with a suffix whose
last character differs from `a`. -/
theorem not_pyEndsWith_of_getLast (s p : String) {a : Char}
    (hs : s.toList.getLast? = some a) (hp : p.toList ≠ [])
    (hne : p.toList.getLast? ≠ some a) : ¬ pyEndsWith s p = true := by
  rw [pyEndsWith, decide_eq_true_eq]
  rintro ⟨t, ht⟩
  exact hne (by rw [← hs, ← ht, List.getLast?_append_of_ne_nil _ hp])

theorem endsSlash_urlOf (k : Nat) : pyEndsWith (urlOf (k + 1)) "/" = false :=
  Bool.eq_false_iff.mpr
    (not_pyEndsWith_of_getLast _ _ (getLastQ_urlOf k) (by decide) (by decide))

/-- Lists with pairwise different lengths cannot contain the string. -/
theorem contains_eq_false_of_length (v : List String) (s : String)
    (h : ∀ x ∈ v, x.toList.length ≠ s.toList.length) : v.contains s = false := by
  rw [Bool.eq_false_iff]
  intro hc
  have hmem : s ∈ v := List.elem_iff.mp hc
  exact h s hmem rfl

theorem pyLower_getLast_urlOf (k : Nat) :
    (pyLower (urlOf (k + 1))).toList.getLast? = some 'a' := by
  have hmap : (pyLower (urlOf (k + 1))).toList = (urlOf (k + 1)).toList.map Char.toLower := rfl
  rw [hmap, urlOf_toList, List.replicate_succ', ← List.append_assoc, List.map_append]
  rw [show List.map Char.toLower ['a'] = ['a'] from by decide]
  exact List.getLast?_concat _

theorem ext_any_false_urlOf (k : Nat) :
    skip_extensions.any (fun ext => pyEndsWith (pyLower (urlOf (k + 1))) ext) = false := by
  rw [List.any_eq_false]
  intro ext hext
  fin_cases hext <;>
    exact not_pyEndsWith_of_getLast _ _ (pyLower_getLast_urlOf k) (by decide) (by decide)

/-- A substring check fails when some character of the pattern is
missing from the text. -/
theorem not_pyIn_of_missing (t u : String) (ch : Char) (hc : ch ∈ t.toList)
    (hu : ch ∉ u.toList) : pyIn t u = false := by
  rw [pyIn, decide_eq_false_iff_not]
  intro hinf
  exact hu (hinf.subset hc)

theorem is_likely_dynamic_urlOf (k : Nat) : is_likely_dynamic (urlOf k) = false := by
  have hmiss : ∀ ch : Char, ch ∉ ("http://x.com/p").toList → ch ≠ 'a' →
      ch ∉ (urlOf k).toList := by
    intro ch h1 h2 hmem
    rcases urlOf_mem hmem with h | h
    · exact h1 h
    · exact h2 h
  simp only [is_likely_dynamic, techMarkers, List.any_cons, List.any_nil,
    not_pyIn_of_missing "#" _ '#' (by decide) (hmiss '#' (by decide) (by decide)),
    not_pyIn_of_missing "vue" _ 'v' (by decide) (hmiss 'v' (by decide) (by decide)),
    not_pyIn_of_missing "react" _ 'r' (by decide) (hmiss 'r' (by decide) (by decide)),
    not_pyIn_of_missing "angular" _ 'n' (by decide) (hmiss 'n' (by decide) (by decide)),
    not_pyIn_of_missing "spa" _ 's' (by decide) (hmiss 's' (by decide) (by decide)),
    not_pyIn_of_missing "dashboard" _ 'd' (by decide) (hmiss 'd' (by decide) (by decide)),
    Bool.or_self, Bool.or_false]

end Crawler

namespace Crawler

open PyUrllib

/-- Every member of the family parses, with netloc `x.com`. -/
theorem urlsplitE_urlOf (k : Nat) :
    ∃ sr, urlsplitE (urlOf k) "" = Except.ok sr ∧ sr.netloc = "x.com" :=
  ⟨_, rfl, rfl⟩

theorem normalizeE_urlOf (k : Nat) (src : String) :
    normalize_urlE (urlOf (k + 1)) src = Except.ok (urlOf (k + 1)) := by
  have h1 : (pyStartsWith (urlOf (k + 1)) "http://" ||
      pyStartsWith (urlOf (k + 1)) "https://") = true := by
    rw [pyStartsWith_urlOf]
    rfl
  have h2 : (urlOf (k + 1)).toList.takeWhile (fun c => !(c == '#')) = (urlOf (k + 1)).toList :=
    List.takeWhile_eq_self_iff.mpr (noHash_urlOf _)
  simp only [normalize_urlE, h1, Bool.not_true, Bool.false_eq_true, if_false,
    h2, mk_toList, endsSlash_urlOf]

theorem should_crawlE_urlOf (k : Nat) (v : List String)
    (hlen : ∀ x ∈ v, x.toList.length ≠ 14 + (k + 1)) :
    growCrawler.should_crawlE v (urlOf (k + 1)) = Except.ok true := by
  obtain ⟨sr, hsr, hnet⟩ := urlsplitE_urlOf (k + 1)
  have hcont : v.contains (urlOf (k + 1)) = false := by
    refine contains_eq_false_of_length v _ ?_
    intro x hx
    rw [urlOf_length]
    exact hlen x hx
  have hstart : (pyStartsWith (urlOf (k + 1)) "http://" ||
      pyStartsWith (urlOf (k + 1)) "https://") = true := by
    rw [pyStartsWith_urlOf]
    rfl
  have hdom : growCrawler.is_same_domainE (urlOf (k + 1)) = Except.ok true := by
    rw [is_same_domainE_of_ok hsr]
    have hs : urlsplit (urlOf (k + 1)) "" = sr := urlsplitE_ok hsr
    have : growCrawler.is_same_domain (urlOf (k + 1)) = true := by
      have hup : urlparse (urlOf (k + 1)) "" = urlparseOf sr := by
        rw [show urlparse (urlOf (k + 1)) "" = urlparseOf (urlsplit (urlOf (k + 1)) "") from rfl,
          hs]
      show ((urlparse (urlOf (k + 1)) "").netloc == growCrawler.base_domain) = true
      rw [hup, urlparseOf_netloc, hnet]
      rfl
    rw [this]
  simp only [WebsiteCrawler.should_crawlE, hstart, Bool.not_true, Bool.false_eq_true,
    if_false, hcont, hdom, ext_any_false_urlOf k]
  rfl

theorem normalizeE_bad (src : String) :
    normalize_urlE "http://[bad" src = Except.ok "http://[bad" := rfl

theorem should_crawlE_bad (v : List String) (h : ∀ x ∈ v, 14 ≤ x.toList.length) :
    growCrawler.should_crawlE v "http://[bad" = Except.error () := by
  have hcont : v.contains "http://[bad" = false := by
    refine contains_eq_false_of_length v _ ?_
    intro x hx hcon
    have h14 := h x hx
    have h11 : ("http://[bad").toList.length = 11 := rfl
    rw [h11] at hcon
    omega
  have hstart : (pyStartsWith "http://[bad" "http://" ||
      pyStartsWith "http://[bad" "https://") = true := by decide
  have hdom : growCrawler.is_same_domainE "http://[bad" = Except.error () := rfl
  simp only [WebsiteCrawler.should_crawlE, hstart, Bool.not_true, Bool.false_eq_true,
    if_false, hcont, hdom]

theorem processLinks_grow (k : Nat) (v : List String)
    (hv : ∀ x ∈ v, 14 ≤ x.toList.length ∧ x.toList.length < 14 + k) :
    processLinks growCrawler (urlOf k :: v) (urlOf k) [urlOf (k + 1), "http://[bad"]
      = ([urlOf (k + 1)], true) := by
  have h1 := normalizeE_urlOf k (urlOf k)
  have h2 : growCrawler.should_crawlE (urlOf k :: v) (urlOf (k + 1)) = Except.ok true := by
    refine should_crawlE_urlOf k _ ?_
    intro x hx
    rcases List.mem_cons.mp hx with rfl | hx
    · rw [urlOf_length]
      omega
    · have := (hv x hx).2
      omega
  have h3 := normalizeE_bad (urlOf k)
  have h4 : growCrawler.should_crawlE (urlOf k :: v) "http://[bad" = Except.error () := by
    refine should_crawlE_bad _ ?_
    intro x hx
    rcases List.mem_cons.mp hx with rfl | hx
    · rw [urlOf_length]
      omega
    · exact (hv x hx).1
  simp only [processLinks, h1, h2, h3, h4, if_true]

end Crawler

namespace Crawler

open PyUrllib

theorem growFetch_dispatch (k : Nat) :
    dispatchFetch growFetch growFetch (urlOf k)
      = some { text := "",
               structured_data := some
                 { links := [{ text := "", url := urlOf (k + 1) },
                             { text := "", url := "http://[bad" }] } } := by
  simp only [dispatchFetch, is_likely_dynamic_urlOf, Bool.false_eq_true, if_false,
    growFetch, urlOf_succ_append]

/-- One iteration of the grow chain: the page is recorded and the next
family member enqueued, but the raise on `http://[bad` skips
`page_count += 1`. -/
theorem grow_step (k : Nat) (v : List String) (r : List PageRecord)
    (hv : ∀ x ∈ v, 14 ≤ x.toList.length ∧ x.toList.length < 14 + k) :
    crawlStep growCrawler growFetch growFetch ⟨v, [urlOf k], r, 0⟩
      = CrawlOutcome.next
          ⟨urlOf k :: v, [urlOf (k + 1)],
           r ++ [{ url := urlOf k,
                   content := { text := "",
                                structured_data := some
                                  { links := [{ text := "", url := urlOf (k + 1) },
                                              { text := "", url := "http://[bad" }] } } }],
           0⟩ := by
  have hm : ¬ growCrawler.max_pages ≤ 0 := by decide
  have hcont : v.contains (urlOf k) = false := by
    refine contains_eq_false_of_length v _ ?_
    intro x hx
    rw [urlOf_length]
    have := (hv x hx).2
    omega
  have hf := growFetch_dispatch k
  have hpl : processLinks growCrawler (urlOf k :: v) (urlOf k)
      (pageLinks { text := "",
                   structured_data := some
                     { links := [{ text := "", url := urlOf (k + 1) },
                                 { text := "", url := "http://[bad" }] } })
      = ([urlOf (k + 1)], true) := processLinks_grow k v hv
  rw [crawlStep_fetch_raise growCrawler growFetch growFetch v (urlOf k) [] r 0 _ _
    hm hcont hf hpl]
  rfl

/-- The grow chain never halts: by induction on the fuel, every run
from a family state returns `none`. -/
theorem grow_run_none : ∀ fuel k (v : List String) (r : List PageRecord),
    (∀ x ∈ v, 14 ≤ x.toList.length ∧ x.toList.length < 14 + k) →
    crawlRun growCrawler growFetch growFetch fuel ⟨v, [urlOf k], r, 0⟩ = none := by
  intro fuel
  induction fuel with
  | zero =>
    intro k v r _
    rfl
  | succ fuel ih =>
    intro k v r hv
    simp only [crawlRun]
    rw [grow_step k v r hv]
    refine ih (k + 1) (urlOf k :: v) _ ?_
    intro x hx
    rcases List.mem_cons.mp hx with rfl | hx
    · rw [urlOf_length]
      omega
    · have := hv x hx
      omega

end Crawler

namespace Crawler

open PyUrllib

/-- C1 counterexample: the bound `len(results) ≤ pageBudget` fails on the
real code.  With budget 1, a first page that links to a second page and
then to `http://[bad`, the record of the first page is appended and
`http://x.com/p2` enqueued before `urlparse` raises `Invalid IPv6 URL`
inside the link loop; the `except` swallows the error after
`results.append` but before `page_count += 1`, so the budget is never
charged and a second page is fetched and recorded: 2 records with
`max_pages = 1`. -/
theorem budget_overrun_on_link_error :
    (mkCrawler "http://x.com" 1 false none).max_pages = 1 ∧
    (crawlRun (mkCrawler "http://x.com" 1 false none) budgetFetch budgetFetch 3
        (mkCrawler "http://x.com" 1 false none).initState).map
      (fun st => (st.results.map PageRecord.url, st.page_count))
      = some (["http://x.com", "http://x.com/p2"], 1) := by
  exact ⟨rfl, by decide⟩

/-- C1 (amended): when every link of every fetchable page normalizes and
parses without a `ValueError` (`SafeLinks` — the only way the shared
`try` can be entered by the link loop is a fetch that already succeeded),
the budget claim holds: `len(results) = page_count ≤ max_pages` is a loop
invariant, so the results list never exceeds the page budget, and a
finished run ended with the budget reached exactly or the frontier
exhausted. -/
theorem crawl_results_bounded_of_safe_links (c : WebsiteCrawler) (fs fd : Fetcher)
    (hsafe : SafeLinks fs fd) :
    ∀ fuel (st st2 : CrawlState),
      st.results.length = st.page_count → st.page_count ≤ c.max_pages →
      crawlRun c fs fd fuel st = some st2 →
      st.results.length ≤ c.max_pages ∧
      st2.results.length ≤ c.max_pages ∧
      (st2.results.length = c.max_pages ∨ st2.queue = []) ∧
      st2.results.length = st2.page_count := by
  intro fuel
  induction fuel with
  | zero =>
    intro st st2 _ _ hr
    simp [crawlRun] at hr
  | succ fuel ih =>
    intro st st2 h1 h2 hr
    simp only [crawlRun] at hr
    cases hs : crawlStep c fs fd st with
    | done st3 =>
      rw [hs] at hr
      have hst : st3 = st2 := by simpa using hr
      subst hst
      obtain ⟨heq, hcond⟩ := crawlStep_done_char c fs fd st st3 hs
      subst heq
      refine ⟨by omega, by omega, ?_, by omega⟩
      rcases hcond with hq | hm
      · exact Or.inr hq
      · exact Or.inl (by omega)
    | next st3 =>
      rw [hs] at hr
      obtain ⟨h1', h2'⟩ := crawlStep_next_inv c fs fd hsafe st st3 hs h1 h2
      obtain ⟨_, hb, hc, hd⟩ := ih st3 st2 h1' h2' hr
      exact ⟨by omega, hb, hc, hd⟩

/-- C1 witness: the amended bound applied to a concrete run (budget 5,
every fetch raising) that halts after two steps with no records. -/
theorem crawl_results_bounded_of_safe_links_witness :
    (mkCrawler "http://x.com" 5 false none).initState.results.length
        ≤ (mkCrawler "http://x.com" 5 false none).max_pages ∧
    (⟨["http://x.com"], [], [], 0⟩ : CrawlState).results.length
        ≤ (mkCrawler "http://x.com" 5 false none).max_pages ∧
    ((⟨["http://x.com"], [], [], 0⟩ : CrawlState).results.length
        = (mkCrawler "http://x.com" 5 false none).max_pages ∨
      (⟨["http://x.com"], [], [], 0⟩ : CrawlState).queue = []) ∧
    (⟨["http://x.com"], [], [], 0⟩ : CrawlState).results.length
        = (⟨["http://x.com"], [], [], 0⟩ : CrawlState).page_count :=
  crawl_results_bounded_of_safe_links (mkCrawler "http://x.com" 5 false none)
    failFetch failFetch
    (by
      intro u res h l hl
      simp [dispatchFetch, failFetch, ite_self] at h)
    2 (mkCrawler "http://x.com" 5 false none).initState ⟨["http://x.com"], [], [], 0⟩
    rfl (by decide) (by decide)

end Crawler

namespace Crawler

open PyUrllib

/-- C5 counterexample: `should_crawl` is not total, so the claimed
"returns False in exactly these cases" iff fails on the real code: on a
same-scheme URL with an unbalanced bracket such as `http://[fe80::1/x`,
`urlparse` inside `is_same_domain` raises `ValueError: Invalid IPv6
URL` instead of any boolean being returned. -/
theorem should_crawl_raises_on_bracket_url :
    (mkCrawler "http://x.com" 5 false none).should_crawlE [] "http://[fe80::1/x"
      = Except.error () := rfl

/-- C5 (amended): on any URL that `urlsplit` accepts (no unbalanced
bracket in the netloc), `should_crawl` returns `False` exactly when the
URL is not http/https, or is already visited, or its parsed host
differs from `base_domain` (exact string comparison), or the robots
policy denies it, or it ends case-insensitively in one of the fourteen
blocked extensions; in particular a URL whose lowercase form ends in
`.pdf` is always rejected. -/
theorem should_crawl_spec_of_parse_ok (c : WebsiteCrawler) (visited : List String)
    (url : String) (sr : SplitResult) (hok : urlsplitE url "" = Except.ok sr) :
    (c.should_crawlE visited url = Except.ok false ↔
      ((pyStartsWith url "http://" || pyStartsWith url "https://") = false ∨
       url ∈ visited ∨
       sr.netloc ≠ c.base_domain ∨
       c.is_allowed url = false ∨
       (∃ ext ∈ skip_extensions, pyEndsWith (pyLower url) ext = true))) ∧
    (pyEndsWith (pyLower url) ".pdf" = true →
      c.should_crawlE visited url = Except.ok false) := by
  have hbr := @should_crawlE_of_ok c visited url sr hok
  have hnet : (urlparse url "").netloc = sr.netloc := by
    rw [show urlparse url "" = urlparseOf (urlsplit url "") from rfl, urlsplitE_ok hok,
      urlparseOf_netloc]
  have hinj : ((Except.ok (c.should_crawl visited url) : Except Unit Bool)
      = Except.ok false) ↔ c.should_crawl visited url = false := by simp
  rw [← hnet]
  constructor
  · rw [hbr, hinj]
    exact (should_crawl_false_iff c visited url).1
  · intro hpdf
    rw [hbr, (should_crawl_false_iff c visited url).2 hpdf]

/-- C5 witness: a URL ending in `.PDF` (uppercase) on the crawl domain
parses cleanly and is rejected by the error-aware check. -/
theorem should_crawl_spec_of_parse_ok_witness :
    (mkCrawler "http://x.com" 5 false none).should_crawlE [] "http://x.com/file.PDF"
      = Except.ok false :=
  (should_crawl_spec_of_parse_ok (mkCrawler "http://x.com" 5 false none) []
    "http://x.com/file.PDF" (urlsplit "http://x.com/file.PDF" "") rfl).2 (by decide)

end Crawler

namespace Crawler

open PyUrllib

/-- C7 (amended): the crawler performs no semantic validation of the
seed.  Any seed string that `urlsplit` accepts — well-formed URL or
not — is enqueued verbatim and fetched like a normal URL: when the
fetch succeeds its record enters `results`, and when the fetch raises
the error is caught and the crawl returns an empty result list
normally, so for such seeds there is no `Aborted` state and no error is
surfaced.  The one exception is a seed `urlsplit` itself rejects (an
unbalanced bracket, e.g. `http://[bad`): `urlparse(base_url)` on line
20 of `__init__` then raises an uncaught `ValueError` — a crash in the
constructor before any fetch, not a reported `Aborted` transition. -/
theorem no_seed_validation_parseable (seed : String) (n : Nat) (hn : 0 < n)
    (sr : SplitResult) (hok : urlsplitE seed "" = Except.ok sr) :
    mkCrawlerE seed n false none = Except.ok (mkCrawler seed n false none) ∧
    ((mkCrawler seed n false none).crawl noLinksFetch noLinksFetch).map PageRecord.url
      = [seed] ∧
    (mkCrawler seed n false none).crawl failFetch failFetch = [] ∧
    mkCrawlerE "http://[bad" 5 false none = Except.error () := by
  have hnle : ¬ (mkCrawler seed n false none).max_pages ≤ 0 := by
    show ¬ n ≤ 0
    omega
  refine ⟨?_, ?_, ?_, rfl⟩
  · have hs : urlsplit seed "" = sr := urlsplitE_ok hok
    have hparse : urlparse seed "" = urlparseOf sr := by
      rw [show urlparse seed "" = urlparseOf (urlsplit seed "") from rfl, hs]
    unfold mkCrawlerE mkCrawler
    rw [urlparseE_eq, hok, hparse]
    rfl
  · have s1 := crawlLoop_fetch (mkCrawler seed n false none) noLinksFetch noLinksFetch
      [] seed [] [] 0 emptyRecord hnle rfl
      (by simp only [dispatchFetch, noLinksFetch, ite_self])
    show (crawlLoop (mkCrawler seed n false none) noLinksFetch noLinksFetch
        ⟨[], [seed], [], 0⟩).results.map PageRecord.url = [seed]
    rw [s1]
    show (crawlLoop (mkCrawler seed n false none) noLinksFetch noLinksFetch
        ⟨[seed], [], [PageRecord.mk seed emptyRecord], 1⟩).results.map PageRecord.url = [seed]
    rw [crawlLoop_nil]
    rfl
  · have s1 := crawlLoop_fail (mkCrawler seed n false none) failFetch failFetch
      [] seed [] [] 0 hnle rfl
      (by simp only [dispatchFetch, failFetch, ite_self])
    show (crawlLoop (mkCrawler seed n false none) failFetch failFetch
        ⟨[], [seed], [], 0⟩).results = []
    rw [s1, crawlLoop_nil]

/-- C7 witness for the amended claim at the malformed but parseable seed
`"not a url"` with budget 5. -/
theorem no_seed_validation_parseable_witness :
    (0 : Nat) < 5 ∧
    (mkCrawler "not a url" 5 false none).crawl failFetch failFetch = [] :=
  ⟨by decide,
   (no_seed_validation_parseable "not a url" 5 (by decide)
     (urlsplit "not a url" "") rfl).2.2.1⟩

end Crawler

namespace Crawler

open PyUrllib

/-- C8 counterexample: the crawl loop does not always terminate.  On the
site where every page `u` links to the fresh page `u ++ "a"` and then to
`http://[bad`, each iteration appends a record and enqueues the next
family member, after which `urlparse` raises `Invalid IPv6 URL` on the
bracket link; the `except` swallows the raise after `queue.append` but
before `page_count += 1`, so with budget 1 the counter stays 0, every
dequeued URL is fresh, and the `while` guard never becomes false: no
amount of fuel makes the faithful step function halt. -/
theorem crawl_diverges_on_link_error_chain :
    ¬ loopTerminates growCrawler growFetch growFetch growCrawler.initState := by
  rintro ⟨fuel, st2, hr⟩
  have h0 : growCrawler.initState = ⟨[], [urlOf 0], [], 0⟩ := rfl
  rw [h0, grow_run_none fuel 0 [] [] (by intro x hx; cases hx)] at hr
  exact Option.noConfusion hr

/-- C8 (amended): when every link of every fetchable page normalizes and
parses without a `ValueError` (`SafeLinks`), the loop terminates from
every state — each iteration either exits, consumes a unit of budget, or
shortens the queue — and a finished run satisfies the Completed
condition: the frontier is empty or the budget is reached.  A seed page
linking only to itself is fetched exactly once: the seed is in
`visited_urls` before its links are filtered, so the self-link is
dropped and the loop stops after two iterations with an empty frontier. -/
theorem crawl_terminates_of_safe_links (c : WebsiteCrawler) (fs fd : Fetcher)
    (hsafe : SafeLinks fs fd) :
    (∀ st, loopTerminates c fs fd st) ∧
    (∀ fuel (st st2 : CrawlState), crawlRun c fs fd fuel st = some st2 →
      st2.queue = [] ∨ c.max_pages ≤ st2.page_count) ∧
    crawlRun (mkCrawler "http://x.com" 5 false none) selfLoopFetch selfLoopFetch 2
        (mkCrawler "http://x.com" 5 false none).initState
      = some ⟨["http://x.com"], [], [PageRecord.mk "http://x.com" selfLoopRecord], 1⟩ := by
  refine ⟨?_, ?_, by decide⟩
  · intro st
    exact terminates_aux c fs fd hsafe (c.max_pages - st.page_count) st.queue.length st
      (le_refl _) (le_refl _)
  · intro fuel
    induction fuel with
    | zero =>
      intro st st2 hr
      simp [crawlRun] at hr
    | succ fuel ih =>
      intro st st2 hr
      simp only [crawlRun] at hr
      cases hs : crawlStep c fs fd st with
      | done st3 =>
        rw [hs] at hr
        have hst : st3 = st2 := by simpa using hr
        subst hst
        obtain ⟨heq, hcond⟩ := crawlStep_done_char c fs fd st st3 hs
        rw [heq]
        exact hcond
      | next st3 =>
        rw [hs] at hr
        exact ih st3 st2 hr

/-- C8 witness: the safe-links termination theorem applied to the
always-raising fetcher (vacuously safe) at the standard initial state. -/
theorem crawl_terminates_of_safe_links_witness :
    loopTerminates (mkCrawler "http://x.com" 5 false none) failFetch failFetch
      (mkCrawler "http://x.com" 5 false none).initState :=
  (crawl_terminates_of_safe_links (mkCrawler "http://x.com" 5 false none) failFetch failFetch
    (by
      intro u res h l hl
      simp [dispatchFetch, failFetch, ite_self] at h)).1
    (mkCrawler "http://x.com" 5 false none).initState

end Crawler
